import Mathlib

/-!
Verification of the nginx push-stream exporter core: the metric catalog,
the metric filter, the JSON schema decoders (native-number schema and
numeric-string schema of the `pushstream` package), and the extraction
walk performed by `Exporter.scrape`, shallowly embedded from the Go
source `nginx_pushstream_exporter.go` and the two variants of
`pushstream/pushstream.go`.
-/

namespace NginxPushStream

/-! ## Basic machine-integer arithmetic (Go `int64`) -/

/-- Smallest `int64` value. -/
def int64Min : Int := -(2 ^ 63)

/-- Largest `int64` value. -/
def int64Max : Int := 2 ^ 63 - 1

/-- Reduce an integer into the `int64` range, as Go two's-complement
arithmetic does on overflow. -/
def wrap64 (n : Int) : Int := (n + 2 ^ 63) % 2 ^ 64 - 2 ^ 63

/-- Go `int64` addition (`+=` in `scrape`): wraps on overflow. -/
def i64add (a b : Int) : Int := wrap64 (a + b)

/-! ## JSON values

The body fetched from nginx is parsed by `encoding/json`.  A parsed
JSON document is modelled as a tree; numerals are integer-valued (the
only numerals the status page and the claims involve).  Byte-level
parsing is the standard library's; a scrape body is therefore modelled
as `Except String Json`, where `.error` stands for malformed JSON
(a non-nil `jsonError` from the stream decoder). -/

inductive Json where
  | null : Json
  | bool (b : Bool) : Json
  | num (n : Int) : Json
  | str (s : String) : Json
  | arr (elems : List Json) : Json
  | obj (fields : List (String × Json)) : Json

/-! ## Field-name matching of `encoding/json`

`encoding/json` matches an object key to a struct tag exactly or,
failing that, case-insensitively (`strings.EqualFold`); restricted to
the ASCII keys in play this is ASCII case folding.  Within one object,
later keys resolving to the same field overwrite earlier ones. -/

/-- ASCII case folding of one character. -/
def asciiFold (c : Char) : Char :=
  if 'A' ≤ c ∧ c ≤ 'Z' then Char.ofNat (c.toNat + 32) else c

/-- Case-insensitive (ASCII) equality of an object key with a struct tag. -/
def eqFold (a b : String) : Bool :=
  a.data.map asciiFold == b.data.map asciiFold

/-! ## Metric catalog (`metrics`, `pushStreamMetrics`, `newPushStreamMetrics`) -/

/-- A Prometheus metric descriptor (`prometheus.Desc`): fully qualified
name, help string and variable label names, as built by
`prometheus.NewDesc` in `newPushStreamMetrics`. -/
structure Desc where
  fqName : String
  help : String
  variableLabels : List String
deriving DecidableEq, Repr

/-- `nginxLabelNames` from the source. -/
def nginxLabelNames : List String := ["channel"]

/-- `newPushStreamMetrics`: builds the descriptor
`nginx_push_stream_<metricName>` with the `channel` label. -/
def newPushStreamMetrics (metricName docString : String) : Desc :=
  ⟨"nginx" ++ "_" ++ "push_stream" ++ "_" ++ metricName, docString, nginxLabelNames⟩

/-- The `channels` catalog entry. -/
def channelsDesc : Desc :=
  newPushStreamMetrics "channels" "Current number of existing channels on this server."

/-- The `subscribers` catalog entry. -/
def subscribersDesc : Desc :=
  newPushStreamMetrics "subscribers"
    "Current number of connected subscribers on channels on this server."

/-- The `published_messages` catalog entry. -/
def publishedMessagesDesc : Desc :=
  newPushStreamMetrics "published_messages" "Current number of existing channels on this server."

/-- The `stored_messages` catalog entry. -/
def storedMessagesDesc : Desc :=
  newPushStreamMetrics "stored_messages" "Current number of existing channels on this server."

/-- The `subscribers_total` catalog entry. -/
def subscribersTotalDesc : Desc :=
  newPushStreamMetrics "subscribers_total"
    "Total current number of connected subscribers on this server."

/-- `pushStreamMetrics`: the five-entry catalog, written in the order of
the Go map literal (a Go map's key-value associations; iteration order
is arbitrary, so only the association set is significant). -/
def pushStreamMetrics : List (String × Desc) :=
  [("channels", channelsDesc),
   ("subscribers", subscribersDesc),
   ("published_messages", publishedMessagesDesc),
   ("stored_messages", storedMessagesDesc),
   ("subscribers_total", subscribersTotalDesc)]

/-- Insert a string into an ascending list (helper for `sort.Strings`). -/
def insertAsc (x : String) : List String → List String
  | [] => [x]
  | y :: ys => if (compare x y).isLE then x :: y :: ys else y :: insertAsc x ys

/-- `sort.Strings`: sort a list of strings ascending. -/
def sortStrings : List String → List String
  | [] => []
  | x :: xs => insertAsc x (sortStrings xs)

/-- `metrics.String()`: collect the catalog keys, sort them ascending and
join them with commas. -/
def metricsString : String :=
  String.intercalate "," (sortStrings (pushStreamMetrics.map Prod.fst))

/-- Default of the `nginx.metric-fields` flag in `main`:
`pushStreamMetrics.String()`. -/
def nginxMetricFieldsDefault : String := metricsString

/-! ## Metric filter (`filterMetrics`) -/

/-- `strings.Split` on a one-character separator, over the character
list: splitting the empty string yields one empty token, and every
separator occurrence starts a new token. -/
def splitChars (sep : Char) : List Char → List (List Char)
  | [] => [[]]
  | c :: rest =>
    match splitChars sep rest with
    | [] => [[c]]
    | t :: ts => if c = sep then [] :: t :: ts else (c :: t) :: ts

/-- `strings.Split(s, sep)` for a one-character separator. -/
def stringsSplit (s : String) (sep : Char) : List String :=
  (splitChars sep s.data).map String.mk

/-- The selection step of `filterMetrics`: keep the catalog entries whose
key occurs among the comma-separated tokens (the Go code puts the tokens
in a set and walks the catalog map testing membership). -/
def selectKeys (tokens : List String) : List (String × Desc) :=
  pushStreamMetrics.filter (fun p => tokens.contains p.1)

/-- `filterMetrics`: empty selection string yields the empty map;
otherwise split on commas and keep the catalog entries whose key is a
token. -/
def filterMetrics (filter : String) : List (String × Desc) :=
  if filter.length = 0 then []
  else selectKeys (stringsSplit filter ',')

/-- The key set of the selected metrics map handed to `NewExporter` by
`main` under the default configuration. -/
def defaultKeys : List String :=
  (filterMetrics nginxMetricFieldsDefault).map Prod.fst

/-! ## Shared decoding steps of `encoding/json` for one struct field -/

/-- Unmarshal a JSON value into an `int64` field currently holding `cur`:
a numeral in `int64` range is stored, `null` leaves the field unchanged,
anything else is an unmarshal type error. -/
def decInt64 (v : Json) (cur : Int) : Except String Int :=
  match v with
  | .null => .ok cur
  | .num n => if int64Min ≤ n ∧ n ≤ int64Max then .ok n else .error "number out of int64 range"
  | _ => .error "cannot unmarshal value into int64"

/-- Unmarshal a JSON value into a `string` field currently holding `cur`. -/
def decString (v : Json) (cur : String) : Except String String :=
  match v with
  | .null => .ok cur
  | .str s => .ok s
  | _ => .error "cannot unmarshal value into string"

/-! ## Samples and scrape results

`scrape` sends `prometheus.MustNewConstMetric(desc, GaugeValue, value,
label)` on the collect channel; a sent metric is identified by its
catalog key and its single `channel` label value, and carries the
(integer) count handed to the metrics layer.  A scrape either returns
`1` (success), returns `0` (fetch or decode failure), or panics partway
(reflect kind errors, or `MustNewConstMetric` on the nil descriptor
obtained when `subscribers_total` is absent from the selected map); the
samples already sent before the panic remain sent. -/

/-- One emitted catalog sample. -/
structure Sample where
  metric : String
  label : String
  value : Int
deriving DecidableEq, Repr

/-- How one `scrape` invocation ended. -/
inductive Outcome where
  | success : Outcome
  | failure : Outcome
  | panicked : Outcome
deriving DecidableEq, Repr

/-- The observable effect of one `scrape` call: how many times
`totalScrapes.Inc()` ran (it is the first statement, so always once),
the catalog samples sent on the channel, and how the call ended. -/
structure ScrapeResult where
  scrapeIncs : Nat
  samples : List Sample
  outcome : Outcome
deriving DecidableEq, Repr

/-- The liveness gauge value `Collect` sends after `scrape` returns
(`nginx_up`); a panic escapes `Collect` before any liveness sample. -/
def livenessSample : Outcome → Option Int
  | .success => some 1
  | .failure => some 0
  | .panicked => none

end NginxPushStream

namespace NginxPushStream.NumSchema

/-! ## Native-number schema (`pushstream` package, `int64` variant)

`PushStream`/`Channel` with `int64` count fields, and the behaviour of
`Exporter.scrape` compiled against this variant: the reflective walk of
`scrape` is unfolded at this concrete struct layout (field order and
`json` tags as in the source). -/

/-- `Channel`: one per-channel record (`int64` variant). -/
structure Channel where
  Channel : String
  PublishedMessages : Int
  StoredMessages : Int
  Subscribers : Int
deriving DecidableEq, Repr

/-- `PushStream`: the decoded status page (`int64` variant).  `Infos`
holds `[]*Channel`; a `null` array element decodes to a nil pointer,
modelled as `none`. -/
structure PushStream where
  Channels : Int
  Infos : List (Option Channel)
deriving DecidableEq, Repr

/-- `NewPushStream`: the zero-valued record `json.Decode` starts from. -/
def NewPushStream : PushStream := ⟨0, []⟩

/-- Unmarshal the fields of one JSON object into a `Channel`, matching
keys against the `json` tags `channel`, `published_messages`,
`stored_messages`, `subscribers`; unknown keys are ignored, later
duplicates overwrite. -/
def decChannelFields : List (String × Json) → Channel → Except String Channel
  | [], c => .ok c
  | (k, v) :: rest, c =>
    if eqFold k "channel" then
      match decString v c.Channel with
      | .error e => .error e
      | .ok s => decChannelFields rest { c with Channel := s }
    else if eqFold k "published_messages" then
      match decInt64 v c.PublishedMessages with
      | .error e => .error e
      | .ok n => decChannelFields rest { c with PublishedMessages := n }
    else if eqFold k "stored_messages" then
      match decInt64 v c.StoredMessages with
      | .error e => .error e
      | .ok n => decChannelFields rest { c with StoredMessages := n }
    else if eqFold k "subscribers" then
      match decInt64 v c.Subscribers with
      | .error e => .error e
      | .ok n => decChannelFields rest { c with Subscribers := n }
    else decChannelFields rest c

/-- Unmarshal one element of the `infos` array (`*Channel`): `null`
yields a nil pointer, an object is decoded field by field starting from
the zero value. -/
def decChannelElem (v : Json) : Except String (Option Channel) :=
  match v with
  | .null => .ok none
  | .obj fs => (decChannelFields fs ⟨"", 0, 0, 0⟩).map some
  | _ => .error "cannot unmarshal value into Channel"

/-- Decode the elements of the `infos` array one after another. -/
def decChannelList : List Json → Except String (List (Option Channel))
  | [] => .ok []
  | v :: rest =>
    match decChannelElem v with
    | .error e => .error e
    | .ok c =>
      match decChannelList rest with
      | .error e => .error e
      | .ok l => .ok (c :: l)

/-- Unmarshal a JSON value into the `[]*Channel` slice: `null` sets the
nil slice, an array decodes elementwise. -/
def decInfos (v : Json) : Except String (List (Option Channel)) :=
  match v with
  | .null => .ok []
  | .arr elems => decChannelList elems
  | _ => .error "cannot unmarshal value into channel slice"

/-- Unmarshal the fields of the top-level object into a `PushStream`,
matching keys against the tags `channels` and `infos`. -/
def decPushStreamFields : List (String × Json) → PushStream → Except String PushStream
  | [], s => .ok s
  | (k, v) :: rest, s =>
    if eqFold k "channels" then
      match decInt64 v s.Channels with
      | .error e => .error e
      | .ok n => decPushStreamFields rest { s with Channels := n }
    else if eqFold k "infos" then
      match decInfos v with
      | .error e => .error e
      | .ok l => decPushStreamFields rest { s with Infos := l }
    else decPushStreamFields rest s

/-- `json.NewDecoder(body).Decode(&ps)` with `ps : *PushStream`: the
JSON literal `null` sets the pointer itself to nil (no record, no
error), an object decodes into the zero-valued record, anything else is
an unmarshal type error. -/
def decodePushStream (j : Json) : Except String (Option PushStream) :=
  match j with
  | .null => .ok none
  | .obj fs => (decPushStreamFields fs NewPushStream).map some
  | _ => .error "cannot unmarshal value into PushStream"

/-! ### The reflective walk of `Exporter.scrape`, `int64` variant

For each selected key, `scrape` walks the two `PushStream` fields.  The
`Channels` field has kind `int64`, so the `case int64` arm fires and a
sample is sent when the key equals the tag `channels`.  The `Infos`
field fires the `case []*pushstream.Channel` arm: every channel's four
fields are walked; the emission branch sends a sample when the key
equals the field's tag (`reflect.Value.Int` panics if that field is the
`string`-kinded `Channel` name field), and the aggregation branch adds
the `Subscribers` value to the running total when the key is
`subscribers_total`.  A nil channel pointer panics at `NumField`.
Errors carry the samples already sent before the panic. -/

/-- Walk the four fields of one channel for one selected key. -/
def channelFields (key : String) (info : Channel) : Except Unit (List Sample × Int) :=
  if key = "channel" then .error ()
  else
    let s :=
      (if key = "published_messages" then [⟨key, info.Channel, info.PublishedMessages⟩] else [])
      ++ (if key = "stored_messages" then [⟨key, info.Channel, info.StoredMessages⟩] else [])
      ++ (if key = "subscribers" then [⟨key, info.Channel, info.Subscribers⟩] else [])
    let t := if key = "subscribers_total" then info.Subscribers else 0
    .ok (s, t)

/-- Walk the `Infos` slice for one selected key, threading the
`subscribersTotal` accumulator. -/
def infosLoop (key : String) (acc : Int) :
    List (Option Channel) → Except (List Sample) (List Sample × Int)
  | [] => .ok ([], acc)
  | none :: _ => .error []
  | some info :: rest =>
    match channelFields key info with
    | .error _ => .error []
    | .ok (s, t) =>
      match infosLoop key (i64add acc t) rest with
      | .error s2 => .error (s ++ s2)
      | .ok (s2, tot) => .ok (s ++ s2, tot)

/-- Process one selected key: the `Channels` field, then the `Infos`
slice. -/
def stepKey (ps : PushStream) (key : String) (acc : Int) :
    Except (List Sample) (List Sample × Int) :=
  let s0 := if key = "channels" then [Sample.mk key "all" ps.Channels] else []
  match infosLoop key acc ps.Infos with
  | .error s => .error (s0 ++ s)
  | .ok (s, tot) => .ok (s0 ++ s, tot)

/-- Process every selected key in turn. -/
def keysLoop (ps : PushStream) (acc : Int) :
    List String → Except (List Sample) (List Sample × Int)
  | [] => .ok ([], acc)
  | key :: rest =>
    match stepKey ps key acc with
    | .error s => .error s
    | .ok (s, tot) =>
      match keysLoop ps tot rest with
      | .error s2 => .error (s ++ s2)
      | .ok (s2, tot2) => .ok (s ++ s2, tot2)

/-- Extraction part of `scrape` on a decoded record: the per-key walk
followed by the unconditional
`ch <- MustNewConstMetric(e.pushStreamMetrics["subscribers_total"], ...)`,
which panics on the nil descriptor when `subscribers_total` was not
selected. -/
def extract (sel : List String) (ps : PushStream) : List Sample × Outcome :=
  match keysLoop ps 0 sel with
  | .error s => (s, .panicked)
  | .ok (s, total) =>
    if sel.contains "subscribers_total" then
      (s ++ [Sample.mk "subscribers_total" "all" total], .success)
    else (s, .panicked)

/-- The decode stage seen by `scrape`: a malformed body is a stream
error, a parsed document goes through `json.Decode`. -/
def decodeBody (input : Except String Json) : Except String (Option PushStream) :=
  match input with
  | .error e => Except.error e
  | .ok j => decodePushStream j

/-- `Exporter.scrape` compiled against the `int64` schema: increment the
scrape counter, decode the body (malformed JSON or a binding error
returns `0` with no samples; the JSON literal `null` leaves a nil record
on which the reflective walk panics), then extract. -/
def scrape (sel : List String) (input : Except String Json) : ScrapeResult :=
  match decodeBody input with
  | .error _ => ⟨1, [], .failure⟩
  | .ok none => ⟨1, [], .panicked⟩
  | .ok (some ps) =>
    match extract sel ps with
    | (s, o) => ⟨1, s, o⟩

end NginxPushStream.NumSchema

namespace NginxPushStream.StrSchema

/-! ## Numeric-string schema (`pushstream` package, `string` variant)

The second historical variant of `pushstream/pushstream.go` declares
every count field as `string`.  `Exporter.scrape` is unchanged; its
reflective walk is unfolded at this layout: the `Channels` field now has
kind `string`, which matches neither `case int64` nor
`case []*pushstream.Channel`, so no `channels` sample is ever sent; a
per-channel key reaching its tag field calls `reflect.Value.Int` on a
`string` value and panics; the `subscribers_total` aggregation takes the
`case string` arm and adds `strconv.Atoi` of the field, or `0` when
`Atoi` fails. -/

/-- `Channel`: one per-channel record (`string` variant). -/
structure Channel where
  Channel : String
  PublishedMessages : String
  StoredMessages : String
  Subscribers : String
deriving DecidableEq, Repr

/-- `PushStream`: the decoded status page (`string` variant). -/
structure PushStream where
  Channels : String
  Infos : List (Option Channel)
deriving DecidableEq, Repr

/-- `NewPushStream`: the zero-valued record. -/
def NewPushStream : PushStream := ⟨"", []⟩

/-- Parse a non-empty all-digit suffix into a natural number
(helper for `strconv.Atoi`). -/
def parseDecDigits : List Char → Nat → Option Nat
  | [], acc => some acc
  | c :: rest, acc =>
    if '0' ≤ c ∧ c ≤ '9' then parseDecDigits rest (acc * 10 + (c.toNat - '0'.toNat))
    else none

/-- `strconv.Atoi`: optional sign, one or more decimal digits, value
within the 64-bit `int` range; anything else (including out-of-range
values) is an error, modelled as `none`. -/
def atoi (s : String) : Option Int :=
  let core : Bool → List Char → Option Int := fun neg cs =>
    match cs, parseDecDigits cs 0 with
    | [], _ => none
    | _ :: _, none => none
    | _ :: _, some n =>
      if neg then if (n : Int) ≤ 2 ^ 63 then some (-(n : Int)) else none
      else if (n : Int) ≤ int64Max then some (n : Int) else none
  match s.data with
  | '+' :: rest => core false rest
  | '-' :: rest => core true rest
  | cs => core false cs

/-- The contribution of one subscriber string to the aggregate: the
parsed value, or `0` when `Atoi` returns an error. -/
def atoiOrZero (s : String) : Int := (atoi s).getD 0

/-- Unmarshal the fields of one JSON object into a `Channel`
(`string` variant: every count field expects a JSON string). -/
def decChannelFields : List (String × Json) → Channel → Except String Channel
  | [], c => .ok c
  | (k, v) :: rest, c =>
    if eqFold k "channel" then
      match decString v c.Channel with
      | .error e => .error e
      | .ok s => decChannelFields rest { c with Channel := s }
    else if eqFold k "published_messages" then
      match decString v c.PublishedMessages with
      | .error e => .error e
      | .ok s => decChannelFields rest { c with PublishedMessages := s }
    else if eqFold k "stored_messages" then
      match decString v c.StoredMessages with
      | .error e => .error e
      | .ok s => decChannelFields rest { c with StoredMessages := s }
    else if eqFold k "subscribers" then
      match decString v c.Subscribers with
      | .error e => .error e
      | .ok s => decChannelFields rest { c with Subscribers := s }
    else decChannelFields rest c

/-- Unmarshal one `*Channel` element (`string` variant). -/
def decChannelElem (v : Json) : Except String (Option Channel) :=
  match v with
  | .null => .ok none
  | .obj fs => (decChannelFields fs ⟨"", "", "", ""⟩).map some
  | _ => .error "cannot unmarshal value into Channel"

/-- Decode the elements of the `infos` array one after another
(`string` variant). -/
def decChannelList : List Json → Except String (List (Option Channel))
  | [] => .ok []
  | v :: rest =>
    match decChannelElem v with
    | .error e => .error e
    | .ok c =>
      match decChannelList rest with
      | .error e => .error e
      | .ok l => .ok (c :: l)

/-- Unmarshal the `[]*Channel` slice (`string` variant). -/
def decInfos (v : Json) : Except String (List (Option Channel)) :=
  match v with
  | .null => .ok []
  | .arr elems => decChannelList elems
  | _ => .error "cannot unmarshal value into channel slice"

/-- Unmarshal the top-level object fields (`string` variant: the
`channels` field expects a JSON string). -/
def decPushStreamFields : List (String × Json) → PushStream → Except String PushStream
  | [], s => .ok s
  | (k, v) :: rest, s =>
    if eqFold k "channels" then
      match decString v s.Channels with
      | .error e => .error e
      | .ok n => decPushStreamFields rest { s with Channels := n }
    else if eqFold k "infos" then
      match decInfos v with
      | .error e => .error e
      | .ok l => decPushStreamFields rest { s with Infos := l }
    else decPushStreamFields rest s

/-- `json.Decode` into `**PushStream` (`string` variant). -/
def decodePushStream (j : Json) : Except String (Option PushStream) :=
  match j with
  | .null => .ok none
  | .obj fs => (decPushStreamFields fs NewPushStream).map some
  | _ => .error "cannot unmarshal value into PushStream"

/-- Walk the four (all `string`-kinded) fields of one channel for one
selected key: any key equal to a field tag reaches
`reflect.Value.Int` on a `string` value and panics; the
`subscribers_total` aggregation parses with `Atoi`. -/
def channelFields (key : String) (info : Channel) : Except Unit Int :=
  if key = "channel" ∨ key = "published_messages"
      ∨ key = "stored_messages" ∨ key = "subscribers" then .error ()
  else .ok (if key = "subscribers_total" then atoiOrZero info.Subscribers else 0)

/-- Walk the `Infos` slice for one selected key (`string` variant); no
samples are ever produced inside this loop. -/
def infosLoop (key : String) (acc : Int) :
    List (Option Channel) → Except (List Sample) Int
  | [] => .ok acc
  | none :: _ => .error []
  | some info :: rest =>
    match channelFields key info with
    | .error _ => .error []
    | .ok t => infosLoop key (i64add acc t) rest

/-- Process one selected key (`string` variant): the `Channels` field
matches no arm of the type switch, so only the `Infos` walk runs. -/
def stepKey (ps : PushStream) (key : String) (acc : Int) :
    Except (List Sample) Int :=
  infosLoop key acc ps.Infos

/-- Process every selected key in turn (`string` variant). -/
def keysLoop (ps : PushStream) (acc : Int) :
    List String → Except (List Sample) Int
  | [] => .ok acc
  | key :: rest =>
    match stepKey ps key acc with
    | .error s => .error s
    | .ok tot => keysLoop ps tot rest

/-- Extraction part of `scrape` on a decoded record (`string` variant),
ending with the unconditional `subscribers_total` emission. -/
def extract (sel : List String) (ps : PushStream) : List Sample × Outcome :=
  match keysLoop ps 0 sel with
  | .error s => (s, .panicked)
  | .ok total =>
    if sel.contains "subscribers_total" then
      ([Sample.mk "subscribers_total" "all" total], .success)
    else ([], .panicked)

/-- The decode stage seen by `scrape` (`string` variant). -/
def decodeBody (input : Except String Json) : Except String (Option PushStream) :=
  match input with
  | .error e => Except.error e
  | .ok j => decodePushStream j

/-- `Exporter.scrape` compiled against the `string` schema. -/
def scrape (sel : List String) (input : Except String Json) : ScrapeResult :=
  match decodeBody input with
  | .error _ => ⟨1, [], .failure⟩
  | .ok none => ⟨1, [], .panicked⟩
  | .ok (some ps) =>
    match extract sel ps with
    | (s, o) => ⟨1, s, o⟩

end NginxPushStream.StrSchema

namespace NginxPushStream

/-! ## Wire-format payloads: validity and direct field readers

A payload reader independent of the decoder, used to state decode and
extraction correctness against the raw JSON: the value of an object
field is the one of the unique key resolving (in the `encoding/json`
sense) to the wire tag. -/

/-- The fields of a JSON object (empty for non-objects). -/
def objFields : Json → List (String × Json)
  | .obj fs => fs
  | _ => []

/-- Values of the object fields whose key resolves to `tag`. -/
def tagValues (fs : List (String × Json)) (tag : String) : List Json :=
  (fs.filter (fun p => eqFold p.1 tag)).map Prod.snd

/-- A JSON numeral within `int64` range. -/
def isIntVal : Json → Bool
  | .num n => decide (int64Min ≤ n ∧ n ≤ int64Max)
  | _ => false

/-- A JSON string. -/
def isStrVal : Json → Bool
  | .str _ => true
  | _ => false

/-- At most one occurrence, and an in-range numeral if present. -/
def okOptInt : List Json → Bool
  | [] => true
  | [v] => isIntVal v
  | _ => false

/-- At most one occurrence, and a string if present. -/
def okOptStr : List Json → Bool
  | [] => true
  | [v] => isStrVal v
  | _ => false

/-- Exactly one occurrence, an in-range numeral. -/
def oneInt : List Json → Bool
  | [v] => isIntVal v
  | _ => false

/-- Exactly one occurrence, a string. -/
def oneStr : List Json → Bool
  | [v] => isStrVal v
  | _ => false

/-- The numeral carried by a singleton occurrence list, else a default. -/
def lastIntD : List Json → Int → Int
  | [.num n], _ => n
  | _, d => d

/-- The string carried by a singleton occurrence list, else a default. -/
def lastStrD : List Json → String → String
  | [.str s], _ => s
  | _, d => d

/-- At most one occurrence, and a decodable `infos` value if present
(native-number schema). -/
def okInfosOpt : List Json → Bool
  | [] => true
  | [v] =>
    (match NumSchema.decInfos v with
     | .ok _ => true
     | .error _ => false)
  | _ => false

/-- The decoded slice carried by a singleton `infos` occurrence, else a
default (native-number schema). -/
def lastInfosD : List Json → List (Option NumSchema.Channel) → List (Option NumSchema.Channel)
  | [v], d =>
    (match NumSchema.decInfos v with
     | .ok l => l
     | .error _ => d)
  | _, d => d

/-- A well-formed native-number channel object: the four wire fields
each occur exactly once with the native-number types. -/
def validChannelItem (it : Json) : Bool :=
  match it with
  | .obj fs =>
    oneStr (tagValues fs "channel")
    && oneInt (tagValues fs "published_messages")
    && oneInt (tagValues fs "stored_messages")
    && oneInt (tagValues fs "subscribers")
  | _ => false

/-- Exactly one occurrence, an array of well-formed channel objects. -/
def oneArrAll (l : List Json) : Bool :=
  match l with
  | [Json.arr items] => items.all validChannelItem
  | _ => false

/-- A valid native-number payload: a JSON object whose `channels` field
occurs exactly once as an in-range numeral and whose `infos` field
occurs exactly once as an array of well-formed channel objects; other
fields may be present provided they do not resolve to a wire tag. -/
def validNumPayload (j : Json) : Bool :=
  match j with
  | .obj fs =>
    oneInt (tagValues fs "channels") && oneArrAll (tagValues fs "infos")
  | _ => false

/-- The payload's top-level channel count, read directly off the JSON. -/
def payloadChannels (j : Json) : Int :=
  lastIntD (tagValues (objFields j) "channels") 0

/-- The payload's channel objects, read directly off the JSON. -/
def payloadInfos (j : Json) : List Json :=
  match tagValues (objFields j) "infos" with
  | [Json.arr items] => items
  | _ => []

/-- A channel object's name, read directly off the JSON. -/
def itemChannel (it : Json) : String :=
  lastStrD (tagValues (objFields it) "channel") ""

/-- A channel object's count field for a wire tag, read directly off the
JSON. -/
def itemField (tag : String) (it : Json) : Int :=
  lastIntD (tagValues (objFields it) tag) 0

/-- The channel record a well-formed channel object denotes. -/
def recordOfItem (it : Json) : NumSchema.Channel :=
  ⟨itemChannel it, itemField "published_messages" it,
   itemField "stored_messages" it, itemField "subscribers" it⟩

/-- The samples of one catalog key among an emitted sample list. -/
def samplesFor (l : List Sample) (key : String) : List Sample :=
  l.filter (fun s => s.metric == key)

/-! ## Concrete payloads used by the specification's scenarios -/

/-- The end-to-end native-number payload of the specification. -/
def jC1 : Json :=
  .obj [("channels", .num 2),
        ("infos", .arr
          [.obj [("channel", .str "a"), ("published_messages", .num 10),
                 ("stored_messages", .num 3), ("subscribers", .num 5)],
           .obj [("channel", .str "b"), ("published_messages", .num 1),
                 ("stored_messages", .num 0), ("subscribers", .num 2)]])]

/-- The sample set the specification expects for `jC1` under the full
default selection. -/
def c1Expected : List Sample :=
  [⟨"channels", "all", 2⟩,
   ⟨"subscribers", "a", 5⟩, ⟨"subscribers", "b", 2⟩,
   ⟨"published_messages", "a", 10⟩, ⟨"published_messages", "b", 1⟩,
   ⟨"stored_messages", "a", 3⟩, ⟨"stored_messages", "b", 0⟩,
   ⟨"subscribers_total", "all", 7⟩]

/-- The malformed native-schema payload of the specification:
`channels` holds a non-numeric string. -/
def jBadChannels : Json :=
  .obj [("channels", .str "not-a-number"), ("infos", .arr [])]

/-- A minimal native-number payload with no channels. -/
def jNumSmall : Json := .obj [("channels", .num 2), ("infos", .arr [])]

/-- The numeric-string rendering of `jNumSmall`. -/
def jStrSmall : Json := .obj [("channels", .str "2"), ("infos", .arr [])]

/-- A numeric-string payload with one channel. -/
def jStrOne : Json :=
  .obj [("channels", .str "2"),
        ("infos", .arr [.obj [("channel", .str "a"), ("published_messages", .str "10"),
                              ("stored_messages", .str "3"), ("subscribers", .str "5")]])]

/-- A string-schema record in which channel `b`'s subscriber field is
the numeric string `"-5"`: a value with no reading as a non-negative
integer, yet accepted by `strconv.Atoi`. -/
def recNeg : StrSchema.PushStream :=
  ⟨"2", [some ⟨"b", "1", "0", "-5"⟩, some ⟨"a", "10", "3", "3"⟩]⟩

/-! ## Documents the native-number binder rejects

`encoding/json` stores a numeral into an `int64` field and skips the
literal `null`, leaving the field at its zero value; every other value
in an integer-typed position is an unmarshal type error.  The following
predicates describe a document that holds such a value in one of the
native-number schema's integer-typed positions. -/

/-- A JSON value in an integer-typed position that the binder can
neither store (a numeral) nor skip (the literal `null`). -/
def nonNumericVal : Json → Bool
  | .null => false
  | .num _ => false
  | _ => true

/-- An object field whose key resolves to one of the three per-channel
integer-typed tags while its value is neither a numeral nor `null`. -/
def badChanField (p : String × Json) : Bool :=
  (eqFold p.1 "published_messages" || eqFold p.1 "stored_messages"
    || eqFold p.1 "subscribers") && nonNumericVal p.2

/-- An object field whose key resolves to the top-level integer-typed
`channels` tag while its value is neither a numeral nor `null`. -/
def badTopField (p : String × Json) : Bool :=
  eqFold p.1 "channels" && nonNumericVal p.2

/-- A channel object holding a non-numeric, non-`null` value in one of
its integer-typed fields. -/
def badItem : Json → Bool
  | .obj gs => gs.any badChanField
  | _ => false

/-- A native-number-schema document holding a non-numeric value other
than `null` in an integer-typed position: in the top-level `channels`
field, or in an integer-typed field of one of the `infos` objects. -/
def hasBadIntField : Json → Bool
  | .obj fs =>
    fs.any badTopField
      || fs.any (fun p => eqFold p.1 "infos"
           && (match p.2 with
               | .arr items => items.any badItem
               | _ => false))
  | _ => false

/-- The native-schema payload with the JSON literal `null` in the
integer-typed `channels` position. -/
def jNullChannels : Json := .obj [("channels", Json.null), ("infos", .arr [])]

/-! ## Helper lemmas about key resolution and occurrence lists -/

theorem eqFold_key_unique {k a b : String} (h : eqFold k a = true) :
    eqFold k b = eqFold a b := by
  have h' : k.data.map asciiFold = a.data.map asciiFold := by
    simpa [eqFold] using h
  simp [eqFold, h']

theorem tagValues_nil (tag : String) : tagValues [] tag = [] := rfl

theorem tagValues_cons (k : String) (v : Json) (rest : List (String × Json)) (tag : String) :
    tagValues ((k, v) :: rest) tag =
      if eqFold k tag = true then v :: tagValues rest tag else tagValues rest tag := by
  by_cases h : eqFold k tag = true <;> simp [tagValues, List.filter_cons, h]

theorem okOptStr_cons {v : Json} {l : List Json} :
    okOptStr (v :: l) = true ↔ isStrVal v = true ∧ l = [] := by
  cases l <;> simp [okOptStr]

theorem okOptInt_cons {v : Json} {l : List Json} :
    okOptInt (v :: l) = true ↔ isIntVal v = true ∧ l = [] := by
  cases l <;> simp [okOptInt]

theorem okInfosOpt_cons {v : Json} {l : List Json} :
    okInfosOpt (v :: l) = true ↔
      (∃ x, NumSchema.decInfos v = .ok x) ∧ l = [] := by
  cases l with
  | nil => cases h : NumSchema.decInfos v <;> simp [okInfosOpt, h]
  | cons w l => simp [okInfosOpt]

theorem isStrVal_iff {v : Json} : isStrVal v = true ↔ ∃ s, v = .str s := by
  cases v <;> simp [isStrVal]

theorem isIntVal_iff {v : Json} :
    isIntVal v = true ↔ ∃ n, v = .num n ∧ int64Min ≤ n ∧ n ≤ int64Max := by
  cases v <;> simp [isIntVal]

/-! ## Decoder correctness on well-formed native-number payloads -/

theorem decString_str (s cur : String) : decString (.str s) cur = .ok s := rfl

theorem decInt64_num {n : Int} (hlo : int64Min ≤ n) (hhi : n ≤ int64Max) (cur : Int) :
    decInt64 (.num n) cur = .ok n := by
  simp [decInt64, hlo, hhi]

theorem decChannelFields_spec (fs : List (String × Json)) :
    ∀ (c : NumSchema.Channel),
      okOptStr (tagValues fs "channel") = true →
      okOptInt (tagValues fs "published_messages") = true →
      okOptInt (tagValues fs "stored_messages") = true →
      okOptInt (tagValues fs "subscribers") = true →
      NumSchema.decChannelFields fs c =
        .ok ⟨lastStrD (tagValues fs "channel") c.Channel,
             lastIntD (tagValues fs "published_messages") c.PublishedMessages,
             lastIntD (tagValues fs "stored_messages") c.StoredMessages,
             lastIntD (tagValues fs "subscribers") c.Subscribers⟩ := by
  induction fs with
  | nil =>
    intro c _ _ _ _
    simp [NumSchema.decChannelFields, tagValues, lastStrD, lastIntD]
  | cons p rest ih =>
    obtain ⟨k, v⟩ := p
    intro c h1 h2 h3 h4
    rw [tagValues_cons] at h1 h2 h3 h4
    rw [tagValues_cons _ _ _ "channel", tagValues_cons _ _ _ "published_messages",
        tagValues_cons _ _ _ "stored_messages", tagValues_cons _ _ _ "subscribers"]
    by_cases hk1 : eqFold k "channel" = true
    · have e2 : eqFold k "published_messages" = false := by
        rw [eqFold_key_unique hk1]; decide
      have e3 : eqFold k "stored_messages" = false := by
        rw [eqFold_key_unique hk1]; decide
      have e4 : eqFold k "subscribers" = false := by
        rw [eqFold_key_unique hk1]; decide
      rw [if_pos hk1] at h1 ⊢
      rw [if_neg (by simp [e2])] at h2 ⊢
      rw [if_neg (by simp [e3])] at h3 ⊢
      rw [if_neg (by simp [e4])] at h4 ⊢
      obtain ⟨hv, hrest⟩ := okOptStr_cons.mp h1
      obtain ⟨s, rfl⟩ := isStrVal_iff.mp hv
      have hrec := ih { c with Channel := s } (by rw [hrest]; rfl) h2 h3 h4
      simp [NumSchema.decChannelFields, hk1, decString_str, hrec, lastStrD, hrest]
    · by_cases hk2 : eqFold k "published_messages" = true
      · have e3 : eqFold k "stored_messages" = false := by
          rw [eqFold_key_unique hk2]; decide
        have e4 : eqFold k "subscribers" = false := by
          rw [eqFold_key_unique hk2]; decide
        rw [if_neg (by simp [hk1])] at h1 ⊢
        rw [if_pos hk2] at h2 ⊢
        rw [if_neg (by simp [e3])] at h3 ⊢
        rw [if_neg (by simp [e4])] at h4 ⊢
        obtain ⟨hv, hrest⟩ := okOptInt_cons.mp h2
        obtain ⟨n, rfl, hlo, hhi⟩ := isIntVal_iff.mp hv
        have hrec := ih { c with PublishedMessages := n } h1 (by rw [hrest]; rfl) h3 h4
        simp [NumSchema.decChannelFields, hk1, hk2, decInt64_num hlo hhi, hrec, lastIntD, hrest]
      · by_cases hk3 : eqFold k "stored_messages" = true
        · have e4 : eqFold k "subscribers" = false := by
            rw [eqFold_key_unique hk3]; decide
          rw [if_neg (by simp [hk1])] at h1 ⊢
          rw [if_neg (by simp [hk2])] at h2 ⊢
          rw [if_pos hk3] at h3 ⊢
          rw [if_neg (by simp [e4])] at h4 ⊢
          obtain ⟨hv, hrest⟩ := okOptInt_cons.mp h3
          obtain ⟨n, rfl, hlo, hhi⟩ := isIntVal_iff.mp hv
          have hrec := ih { c with StoredMessages := n } h1 h2 (by rw [hrest]; rfl) h4
          simp [NumSchema.decChannelFields, hk1, hk2, hk3, decInt64_num hlo hhi, hrec,
            lastIntD, hrest]
        · by_cases hk4 : eqFold k "subscribers" = true
          · rw [if_neg (by simp [hk1])] at h1 ⊢
            rw [if_neg (by simp [hk2])] at h2 ⊢
            rw [if_neg (by simp [hk3])] at h3 ⊢
            rw [if_pos hk4] at h4 ⊢
            obtain ⟨hv, hrest⟩ := okOptInt_cons.mp h4
            obtain ⟨n, rfl, hlo, hhi⟩ := isIntVal_iff.mp hv
            have hrec := ih { c with Subscribers := n } h1 h2 h3 (by rw [hrest]; rfl)
            simp [NumSchema.decChannelFields, hk1, hk2, hk3, hk4, decInt64_num hlo hhi, hrec,
              lastIntD, hrest]
          · rw [if_neg (by simp [hk1])] at h1 ⊢
            rw [if_neg (by simp [hk2])] at h2 ⊢
            rw [if_neg (by simp [hk3])] at h3 ⊢
            rw [if_neg (by simp [hk4])] at h4 ⊢
            simp only [NumSchema.decChannelFields, hk1, hk2, hk3, hk4]
            exact ih _ h1 h2 h3 h4

theorem oneStr_ok {l : List Json} (h : oneStr l = true) : okOptStr l = true := by
  cases l with
  | nil => simp [oneStr] at h
  | cons v t =>
    cases t with
    | nil => exact h
    | cons w t2 => simp [oneStr] at h

theorem oneInt_ok {l : List Json} (h : oneInt l = true) : okOptInt l = true := by
  cases l with
  | nil => simp [oneInt] at h
  | cons v t =>
    cases t with
    | nil => exact h
    | cons w t2 => simp [oneInt] at h

theorem oneInt_iff {l : List Json} :
    oneInt l = true ↔ ∃ n, l = [Json.num n] ∧ int64Min ≤ n ∧ n ≤ int64Max := by
  cases l with
  | nil => simp [oneInt]
  | cons v t =>
    cases t with
    | nil =>
      cases v <;> simp [oneInt, isIntVal]
    | cons w t2 => simp [oneInt]

theorem oneArrAll_iff {l : List Json} :
    oneArrAll l = true ↔
      ∃ items, l = [Json.arr items] ∧ items.all validChannelItem = true := by
  cases l with
  | nil => simp [oneArrAll]
  | cons v t =>
    cases t with
    | nil => cases v <;> simp [oneArrAll]
    | cons w t2 => simp [oneArrAll]

theorem decPushStreamFields_spec (fs : List (String × Json)) :
    ∀ (s : NumSchema.PushStream),
      okOptInt (tagValues fs "channels") = true →
      okInfosOpt (tagValues fs "infos") = true →
      NumSchema.decPushStreamFields fs s =
        .ok ⟨lastIntD (tagValues fs "channels") s.Channels,
             lastInfosD (tagValues fs "infos") s.Infos⟩ := by
  induction fs with
  | nil =>
    intro s _ _
    simp [NumSchema.decPushStreamFields, tagValues, lastIntD, lastInfosD]
  | cons p rest ih =>
    obtain ⟨k, v⟩ := p
    intro s h1 h2
    rw [tagValues_cons] at h1 h2
    rw [tagValues_cons _ _ _ "channels", tagValues_cons _ _ _ "infos"]
    by_cases hk1 : eqFold k "channels" = true
    · have e2 : eqFold k "infos" = false := by
        rw [eqFold_key_unique hk1]; decide
      rw [if_pos hk1] at h1 ⊢
      rw [if_neg (by simp [e2])] at h2 ⊢
      obtain ⟨hv, hrest⟩ := okOptInt_cons.mp h1
      obtain ⟨n, rfl, hlo, hhi⟩ := isIntVal_iff.mp hv
      have hrec := ih { s with Channels := n } (by rw [hrest]; rfl) h2
      simp [NumSchema.decPushStreamFields, hk1, decInt64_num hlo hhi, hrec, lastIntD, hrest]
    · by_cases hk2 : eqFold k "infos" = true
      · rw [if_neg (by simp [hk1])] at h1 ⊢
        rw [if_pos hk2] at h2 ⊢
        obtain ⟨⟨x, hx⟩, hrest⟩ := okInfosOpt_cons.mp h2
        have hrec := ih { s with Infos := x } h1 (by rw [hrest]; rfl)
        simp [NumSchema.decPushStreamFields, hk1, hk2, hx, hrec, lastInfosD, hrest]
      · rw [if_neg (by simp [hk1])] at h1 ⊢
        rw [if_neg (by simp [hk2])] at h2 ⊢
        simp only [NumSchema.decPushStreamFields, hk1, hk2]
        exact ih _ h1 h2

theorem validChannelItem_decode {it : Json} (h : validChannelItem it = true) :
    NumSchema.decChannelElem it = .ok (some (recordOfItem it)) := by
  cases it with
  | obj fs =>
    simp only [validChannelItem, Bool.and_eq_true] at h
    obtain ⟨⟨⟨hc, hpm⟩, hsm⟩, hsub⟩ := h
    have hdec := decChannelFields_spec fs ⟨"", 0, 0, 0⟩
      (oneStr_ok hc) (oneInt_ok hpm) (oneInt_ok hsm) (oneInt_ok hsub)
    simp [NumSchema.decChannelElem, hdec, recordOfItem, itemChannel, itemField, objFields,
      Except.map]
  | null => simp [validChannelItem] at h
  | bool b => simp [validChannelItem] at h
  | num n => simp [validChannelItem] at h
  | str s => simp [validChannelItem] at h
  | arr l => simp [validChannelItem] at h

theorem decChannelList_valid {items : List Json} (h : items.all validChannelItem = true) :
    NumSchema.decChannelList items =
      .ok (items.map (fun it => some (recordOfItem it))) := by
  induction items with
  | nil => rfl
  | cons it rest ih =>
    rw [List.all_cons, Bool.and_eq_true] at h
    obtain ⟨h1, h2⟩ := h
    simp [NumSchema.decChannelList, validChannelItem_decode h1, ih h2]

theorem decodePushStream_valid {j : Json} (h : validNumPayload j = true) :
    NumSchema.decodePushStream j =
      .ok (some ⟨payloadChannels j,
                 (payloadInfos j).map (fun it => some (recordOfItem it))⟩) := by
  cases j with
  | obj fs =>
    simp only [validNumPayload, Bool.and_eq_true] at h
    obtain ⟨h1, h2⟩ := h
    obtain ⟨items, htv, hall⟩ := oneArrAll_iff.mp h2
    obtain ⟨n, htc, _, _⟩ := oneInt_iff.mp h1
    have hinf : NumSchema.decInfos (Json.arr items) =
        .ok (items.map (fun it => some (recordOfItem it))) := by
      simp [NumSchema.decInfos, decChannelList_valid hall]
    have hdec := decPushStreamFields_spec fs NumSchema.NewPushStream
      (oneInt_ok h1) (by simp [okInfosOpt, htv, hinf])
    simp [NumSchema.NewPushStream, lastIntD, lastInfosD, htc, htv, hinf] at hdec
    simp [NumSchema.decodePushStream, NumSchema.NewPushStream, hdec, payloadChannels,
      payloadInfos, objFields, htv, htc, lastIntD, Except.map]
  | null => simp [validNumPayload] at h
  | bool b => simp [validNumPayload] at h
  | num n => simp [validNumPayload] at h
  | str s => simp [validNumPayload] at h
  | arr l => simp [validNumPayload] at h


/-! ## Evaluation of the extraction walk (native-number schema) -/

theorem i64add_zero_zero : i64add 0 0 = 0 := by decide

theorem channelFields_channels (c : NumSchema.Channel) :
    NumSchema.channelFields "channels" c = .ok ([], 0) := rfl

theorem channelFields_subscribers (c : NumSchema.Channel) :
    NumSchema.channelFields "subscribers" c =
      .ok ([Sample.mk "subscribers" c.Channel c.Subscribers], 0) := rfl

theorem channelFields_published (c : NumSchema.Channel) :
    NumSchema.channelFields "published_messages" c =
      .ok ([Sample.mk "published_messages" c.Channel c.PublishedMessages], 0) := rfl

theorem channelFields_stored (c : NumSchema.Channel) :
    NumSchema.channelFields "stored_messages" c =
      .ok ([Sample.mk "stored_messages" c.Channel c.StoredMessages], 0) := rfl

theorem channelFields_total (c : NumSchema.Channel) :
    NumSchema.channelFields "subscribers_total" c = .ok ([], c.Subscribers) := rfl

theorem infosLoop_channels (l : List NumSchema.Channel) :
    NumSchema.infosLoop "channels" 0 (l.map some) = .ok ([], 0) := by
  induction l with
  | nil => rfl
  | cons c rest ih =>
    simp [NumSchema.infosLoop, channelFields_channels, i64add_zero_zero, ih]

theorem infosLoop_subscribers (l : List NumSchema.Channel) :
    NumSchema.infosLoop "subscribers" 0 (l.map some) =
      .ok (l.map (fun c => Sample.mk "subscribers" c.Channel c.Subscribers), 0) := by
  induction l with
  | nil => rfl
  | cons c rest ih =>
    simp [NumSchema.infosLoop, channelFields_subscribers, i64add_zero_zero, ih]

theorem infosLoop_published (l : List NumSchema.Channel) :
    NumSchema.infosLoop "published_messages" 0 (l.map some) =
      .ok (l.map (fun c => Sample.mk "published_messages" c.Channel c.PublishedMessages), 0) := by
  induction l with
  | nil => rfl
  | cons c rest ih =>
    simp [NumSchema.infosLoop, channelFields_published, i64add_zero_zero, ih]

theorem infosLoop_stored (l : List NumSchema.Channel) :
    NumSchema.infosLoop "stored_messages" 0 (l.map some) =
      .ok (l.map (fun c => Sample.mk "stored_messages" c.Channel c.StoredMessages), 0) := by
  induction l with
  | nil => rfl
  | cons c rest ih =>
    simp [NumSchema.infosLoop, channelFields_stored, i64add_zero_zero, ih]

theorem infosLoop_total (l : List NumSchema.Channel) :
    ∀ acc, NumSchema.infosLoop "subscribers_total" acc (l.map some) =
      .ok ([], l.foldl (fun a c => i64add a c.Subscribers) acc) := by
  induction l with
  | nil => intro acc; rfl
  | cons c rest ih =>
    intro acc
    simp [NumSchema.infosLoop, channelFields_total, ih]

theorem keysLoop_default (ps : NumSchema.PushStream) (l : List NumSchema.Channel)
    (hl : ps.Infos = l.map some) :
    NumSchema.keysLoop ps 0
        ["channels", "subscribers", "published_messages", "stored_messages",
         "subscribers_total"] =
      .ok ([Sample.mk "channels" "all" ps.Channels]
             ++ l.map (fun c => Sample.mk "subscribers" c.Channel c.Subscribers)
             ++ l.map (fun c => Sample.mk "published_messages" c.Channel c.PublishedMessages)
             ++ l.map (fun c => Sample.mk "stored_messages" c.Channel c.StoredMessages),
           l.foldl (fun a c => i64add a c.Subscribers) 0) := by
  simp [NumSchema.keysLoop, NumSchema.stepKey, hl, infosLoop_channels, infosLoop_subscribers,
    infosLoop_published, infosLoop_stored, infosLoop_total]

theorem defaultKeys_eq :
    defaultKeys = ["channels", "subscribers", "published_messages", "stored_messages",
      "subscribers_total"] := by decide

theorem extract_default (ps : NumSchema.PushStream) (l : List NumSchema.Channel)
    (hl : ps.Infos = l.map some) :
    NumSchema.extract defaultKeys ps =
      ([Sample.mk "channels" "all" ps.Channels]
         ++ l.map (fun c => Sample.mk "subscribers" c.Channel c.Subscribers)
         ++ l.map (fun c => Sample.mk "published_messages" c.Channel c.PublishedMessages)
         ++ l.map (fun c => Sample.mk "stored_messages" c.Channel c.StoredMessages)
         ++ [Sample.mk "subscribers_total" "all"
               (l.foldl (fun a c => i64add a c.Subscribers) 0)],
       .success) := by
  rw [NumSchema.extract, defaultKeys_eq, keysLoop_default ps l hl]
  simp

/-! ## Filtering emitted samples by catalog key -/

theorem samplesFor_append (l1 l2 : List Sample) (k : String) :
    samplesFor (l1 ++ l2) k = samplesFor l1 k ++ samplesFor l2 k := by
  simp [samplesFor, List.filter_append]

theorem samplesFor_map_self {α : Type} (l : List α) (g : α → Sample) (k : String)
    (h : ∀ a, (g a).metric = k) : samplesFor (l.map g) k = l.map g := by
  rw [samplesFor, List.filter_eq_self]
  intro s hs
  obtain ⟨a, _, rfl⟩ := List.mem_map.mp hs
  simp [h a]

theorem samplesFor_map_ne {α : Type} (l : List α) (g : α → Sample) (k : String)
    (h : ∀ a, (g a).metric ≠ k) : samplesFor (l.map g) k = [] := by
  rw [samplesFor, List.filter_eq_nil_iff]
  intro s hs
  obtain ⟨a, _, rfl⟩ := List.mem_map.mp hs
  simp [h a]

theorem samplesFor_single (s : Sample) (k : String) :
    samplesFor [s] k = if s.metric = k then [s] else [] := by
  by_cases h : s.metric = k <;> simp [samplesFor, List.filter_cons, h]

theorem samplesFor_map_mk {α : Type} (l : List α) (m : String) (f1 : α → String)
    (f2 : α → Int) (k : String) :
    samplesFor (l.map (fun a => Sample.mk m (f1 a) (f2 a))) k
      = if m = k then l.map (fun a => Sample.mk m (f1 a) (f2 a)) else [] := by
  by_cases h : m = k
  · rw [if_pos h]
    exact samplesFor_map_self _ _ _ (fun a => h)
  · rw [if_neg h]
    exact samplesFor_map_ne _ _ _ (fun a => h)

/-! ## Claim theorems -/

/-- C1: on the specification's end-to-end native-number payload with the
full default selection, decode followed by extraction produces exactly
the expected eight samples (`channels{all}=2`, per-channel subscribers,
published and stored messages for `a` and `b`, and
`subscribers_total{all}=7`); and on every valid native-number payload
the scrape succeeds, the single `channels` sample equals the payload's
top-level count, and the per-channel samples equal the corresponding
per-channel fields, read directly off the payload. -/
theorem scrape_end_to_end_native_schema :
    NumSchema.scrape defaultKeys (.ok jC1) = ⟨1, c1Expected, .success⟩ ∧
    ∀ j : Json, validNumPayload j = true →
      (NumSchema.scrape defaultKeys (.ok j)).outcome = .success ∧
      (NumSchema.scrape defaultKeys (.ok j)).scrapeIncs = 1 ∧
      samplesFor (NumSchema.scrape defaultKeys (.ok j)).samples "channels"
        = [Sample.mk "channels" "all" (payloadChannels j)] ∧
      samplesFor (NumSchema.scrape defaultKeys (.ok j)).samples "subscribers"
        = (payloadInfos j).map
            (fun it => Sample.mk "subscribers" (itemChannel it) (itemField "subscribers" it)) ∧
      samplesFor (NumSchema.scrape defaultKeys (.ok j)).samples "published_messages"
        = (payloadInfos j).map
            (fun it => Sample.mk "published_messages" (itemChannel it)
              (itemField "published_messages" it)) ∧
      samplesFor (NumSchema.scrape defaultKeys (.ok j)).samples "stored_messages"
        = (payloadInfos j).map
            (fun it => Sample.mk "stored_messages" (itemChannel it)
              (itemField "stored_messages" it)) := by
  constructor
  · decide
  · intro j hv
    have hdec := decodePushStream_valid hv
    have hl : ((payloadInfos j).map (fun it => some (recordOfItem it)))
        = ((payloadInfos j).map recordOfItem).map some := by
      simp [List.map_map, Function.comp]
    have hext := extract_default
      ⟨payloadChannels j, (payloadInfos j).map (fun it => some (recordOfItem it))⟩
      ((payloadInfos j).map recordOfItem) hl
    have hscr : NumSchema.scrape defaultKeys (.ok j)
        = ⟨1, [Sample.mk "channels" "all" (payloadChannels j)]
                ++ ((payloadInfos j).map recordOfItem).map
                     (fun c => Sample.mk "subscribers" c.Channel c.Subscribers)
                ++ ((payloadInfos j).map recordOfItem).map
                     (fun c => Sample.mk "published_messages" c.Channel c.PublishedMessages)
                ++ ((payloadInfos j).map recordOfItem).map
                     (fun c => Sample.mk "stored_messages" c.Channel c.StoredMessages)
                ++ [Sample.mk "subscribers_total" "all"
                      (((payloadInfos j).map recordOfItem).foldl
                        (fun a c => i64add a c.Subscribers) 0)],
              .success⟩ := by
      simp only [NumSchema.scrape, NumSchema.decodeBody, hdec, hext]
    rw [hscr]
    refine ⟨rfl, rfl, ?_, ?_, ?_, ?_⟩
    · rw [samplesFor_append, samplesFor_append, samplesFor_append, samplesFor_append,
        samplesFor_single, samplesFor_map_mk, samplesFor_map_mk, samplesFor_map_mk,
        samplesFor_single]
      simp
    · rw [samplesFor_append, samplesFor_append, samplesFor_append, samplesFor_append,
        samplesFor_single, samplesFor_map_mk, samplesFor_map_mk, samplesFor_map_mk,
        samplesFor_single]
      simp [List.map_map, Function.comp, recordOfItem]
    · rw [samplesFor_append, samplesFor_append, samplesFor_append, samplesFor_append,
        samplesFor_single, samplesFor_map_mk, samplesFor_map_mk, samplesFor_map_mk,
        samplesFor_single]
      simp [List.map_map, Function.comp, recordOfItem]
    · rw [samplesFor_append, samplesFor_append, samplesFor_append, samplesFor_append,
        samplesFor_single, samplesFor_map_mk, samplesFor_map_mk, samplesFor_map_mk,
        samplesFor_single]
      simp [List.map_map, Function.comp, recordOfItem]

/-- Witness for C1: the general half applied to the concrete end-to-end
payload, whose validity is evaluated. -/
theorem scrape_end_to_end_native_schema_witness :
    validNumPayload jC1 = true ∧
    samplesFor (NumSchema.scrape defaultKeys (.ok jC1)).samples "channels"
      = [Sample.mk "channels" "all" (payloadChannels jC1)] :=
  ⟨by decide, (scrape_end_to_end_native_schema.2 jC1 (by decide)).2.2.1⟩

theorem string_length_zero {s : String} (h : s.length = 0) : s = "" := by
  cases s with
  | mk data =>
    cases data with
    | nil => rfl
    | cons c cs => simp [String.length] at h

/-! ## Wrap-free summation and the string-schema aggregate loop -/

theorem wrap64_eq_self {n : Int} (hlo : int64Min ≤ n) (hhi : n ≤ int64Max) :
    wrap64 n = n := by
  simp only [int64Min] at hlo
  simp only [int64Max] at hhi
  rw [wrap64]
  have h1 : 0 ≤ n + 2 ^ 63 := by linarith
  have h2 : n + 2 ^ 63 < 2 ^ 64 := by
    have he : (2 : Int) ^ 64 = 2 ^ 63 + 2 ^ 63 := by ring
    linarith
  rw [Int.emod_eq_of_lt h1 h2]
  ring

theorem foldl_i64add_nonneg (xs : List Int) :
    ∀ acc : Int, 0 ≤ acc → (∀ x ∈ xs, 0 ≤ x) → acc + xs.sum ≤ int64Max →
      xs.foldl i64add acc = acc + xs.sum := by
  induction xs with
  | nil =>
    intro acc _ _ _
    simp
  | cons x rest ih =>
    intro acc hacc hall hsum
    have hx : 0 ≤ x := hall x (by simp)
    have hrest : ∀ y ∈ rest, 0 ≤ y := fun y hy => hall y (by simp [hy])
    have hsumr : 0 ≤ rest.sum := List.sum_nonneg hrest
    rw [List.sum_cons] at hsum
    have hadd : i64add acc x = acc + x := by
      rw [i64add]
      apply wrap64_eq_self
      · have h0 : (0 : Int) ≤ acc + x := by linarith
        have hmin : int64Min ≤ (0 : Int) := by norm_num [int64Min]
        linarith
      · linarith
    rw [List.foldl_cons, hadd,
      ih (acc + x) (by linarith) hrest (by linarith), List.sum_cons]
    ring

theorem strChannelFields_total (c : StrSchema.Channel) :
    StrSchema.channelFields "subscribers_total" c =
      .ok (StrSchema.atoiOrZero c.Subscribers) := rfl

theorem strInfosLoop_total (l : List StrSchema.Channel) :
    ∀ acc, StrSchema.infosLoop "subscribers_total" acc (l.map some)
      = .ok ((l.map (fun c => StrSchema.atoiOrZero c.Subscribers)).foldl i64add acc) := by
  induction l with
  | nil => intro acc; rfl
  | cons c rest ih =>
    intro acc
    simp [StrSchema.infosLoop, strChannelFields_total, ih, List.foldl_cons]

/-- C2 (code bug, evaluated): a successfully decoded record scraped with
a selection that does not contain `subscribers_total` does not emit a
`subscribers_total` sample; the final unconditional emission looks up a
nil descriptor in the selected map and panics inside
`MustNewConstMetric`, after the filtered samples were already sent. -/
theorem subscribersTotal_unselected_nil_desc_eval :
    NumSchema.scrape ["channels"] (.ok jC1)
      = ⟨1, [Sample.mk "channels" "all" 2], .panicked⟩ := by decide

/-- C3 (code bug, evaluated): corresponding native-number and
numeric-string payloads do not produce the same sample set.  On the
two-field payload with no channels, the number pipeline emits the
`channels` sample and the string pipeline silently drops it (the
reflect type switch has no `string` arm); with one channel present and
a per-channel key selected, the string pipeline panics in
`reflect.Value.Int` before emitting anything. -/
theorem string_schema_divergence_eval :
    NumSchema.scrape defaultKeys (.ok jNumSmall)
      = ⟨1, [Sample.mk "channels" "all" 2, Sample.mk "subscribers_total" "all" 0],
          .success⟩ ∧
    StrSchema.scrape defaultKeys (.ok jStrSmall)
      = ⟨1, [Sample.mk "subscribers_total" "all" 0], .success⟩ ∧
    StrSchema.scrape defaultKeys (.ok jStrOne) = ⟨1, [], .panicked⟩ := by
  exact ⟨by decide, by decide, by decide⟩

/-- C4 (counterexample): in the record `recNeg` exactly one channel's
subscriber field, `"-5"`, has no reading as a non-negative integer while
the other channel is well-formed, yet the `subscribers_total` sample is
`-2`, not the claimed sum `3` of the well-formed channels:
`strconv.Atoi` accepts the negative string and adds `-5`. -/
theorem negative_subscriber_string_counterexample :
    StrSchema.atoi "-5" = some (-5) ∧
    StrSchema.extract ["subscribers_total"] recNeg
      = ([Sample.mk "subscribers_total" "all" (-2)], .success) ∧
    (-2 : Int) ≠ 3 := by
  exact ⟨by decide, by decide, by decide⟩

/-- C4 (amended): for a string-schema record in which exactly one
channel's subscriber field is rejected by `strconv.Atoi` and every other
channel's field parses to a non-negative value whose total fits in
`int64`, a scrape whose selection is exactly `subscribers_total` emits
one `subscribers_total` sample equal to the sum of the parsed values of
the other channels (the rejected channel contributes zero) and reports
success. -/
theorem subscribersTotal_atoi_degradation
    (cs : String) (pre post : List StrSchema.Channel) (bad : StrSchema.Channel)
    (hbad : StrSchema.atoi bad.Subscribers = none)
    (hgood : ∀ c ∈ pre ++ post, ∃ n : Int, StrSchema.atoi c.Subscribers = some n ∧ 0 ≤ n)
    (hfit : ((pre ++ post).map (fun c => StrSchema.atoiOrZero c.Subscribers)).sum
              ≤ int64Max) :
    StrSchema.extract ["subscribers_total"] ⟨cs, (pre ++ [bad] ++ post).map some⟩
      = ([Sample.mk "subscribers_total" "all"
            (((pre ++ post).map (fun c => StrSchema.atoiOrZero c.Subscribers)).sum)],
         .success) := by
  have hnn : ∀ x ∈ (pre ++ [bad] ++ post).map
      (fun c => StrSchema.atoiOrZero c.Subscribers), 0 ≤ x := by
    intro x hx
    obtain ⟨c, hc, rfl⟩ := List.mem_map.mp hx
    rcases List.mem_append.mp hc with hc' | hpost
    · rcases List.mem_append.mp hc' with hpre | hbadc
      · obtain ⟨n, hn, hn0⟩ := hgood c (List.mem_append.mpr (.inl hpre))
        simp [StrSchema.atoiOrZero, hn, hn0]
      · simp only [List.mem_singleton] at hbadc
        subst hbadc
        simp [StrSchema.atoiOrZero, hbad]
    · obtain ⟨n, hn, hn0⟩ := hgood c (List.mem_append.mpr (.inr hpost))
      simp [StrSchema.atoiOrZero, hn, hn0]
  have hsum : ((pre ++ [bad] ++ post).map
        (fun c => StrSchema.atoiOrZero c.Subscribers)).sum
      = ((pre ++ post).map (fun c => StrSchema.atoiOrZero c.Subscribers)).sum := by
    simp [List.map_append, List.sum_append, StrSchema.atoiOrZero, hbad]
  have hfold : (((pre ++ [bad] ++ post).map
        (fun c => StrSchema.atoiOrZero c.Subscribers)).foldl i64add 0)
      = ((pre ++ post).map (fun c => StrSchema.atoiOrZero c.Subscribers)).sum := by
    rw [foldl_i64add_nonneg _ 0 le_rfl hnn (by rw [hsum]; simpa using hfit)]
    rw [hsum]
    ring
  rw [StrSchema.extract]
  have hks : StrSchema.keysLoop ⟨cs, (pre ++ [bad] ++ post).map some⟩ 0
      ["subscribers_total"]
      = .ok (((pre ++ [bad] ++ post).map
          (fun c => StrSchema.atoiOrZero c.Subscribers)).foldl i64add 0) := by
    simp only [StrSchema.keysLoop, StrSchema.stepKey, strInfosLoop_total]
  rw [hks, hfold]
  have hc : (["subscribers_total"] : List String).contains "subscribers_total" = true := rfl
  simp [hc]

/-- Witness for the amended C4: one well-formed channel (`"3"`) and one
channel whose subscriber field `"x"` fails to parse; the aggregate is 3
and the scrape succeeds. -/
theorem subscribersTotal_atoi_degradation_witness :
    StrSchema.atoi "x" = none ∧
    StrSchema.extract ["subscribers_total"]
        ⟨"2", [some ⟨"a", "10", "3", "3"⟩, some ⟨"b", "1", "0", "x"⟩]⟩
      = ([Sample.mk "subscribers_total" "all" 3], .success) := by
  constructor
  · rfl
  · have h := subscribersTotal_atoi_degradation "2" [⟨"a", "10", "3", "3"⟩] []
      ⟨"b", "1", "0", "x"⟩ rfl
      (by
        intro c hc
        simp only [List.append_nil, List.mem_singleton] at hc
        subst hc
        exact ⟨3, rfl, by norm_num⟩)
      (by decide)
    have h3 : ((([⟨"a", "10", "3", "3"⟩] : List StrSchema.Channel) ++ []).map
        (fun c : StrSchema.Channel => StrSchema.atoiOrZero c.Subscribers)) = [3] := rfl
    rw [h3] at h
    simpa using h

/-! ## Every non-`null` non-numeral in an integer-typed position is a
decode error -/

theorem decInt64_nonNumeric {v : Json} (hv : nonNumericVal v = true) (cur : Int) :
    decInt64 v cur = .error "cannot unmarshal value into int64" := by
  cases v with
  | null => simp [nonNumericVal] at hv
  | num n => simp [nonNumericVal] at hv
  | bool b => rfl
  | str s => rfl
  | arr l => rfl
  | obj fs => rfl

theorem decInt64_ok_nonNumeric {v : Json} {cur n : Int}
    (hd : decInt64 v cur = .ok n) : nonNumericVal v = false := by
  cases v with
  | null => rfl
  | num m => rfl
  | bool b => simp [decInt64] at hd
  | str s => simp [decInt64] at hd
  | arr l => simp [decInt64] at hd
  | obj fs => simp [decInt64] at hd

theorem decChannelFields_badField (gs : List (String × Json)) :
    ∀ c : NumSchema.Channel, gs.any badChanField = true →
      ∃ e, NumSchema.decChannelFields gs c = .error e := by
  induction gs with
  | nil =>
    intro c h
    simp at h
  | cons p rest ih =>
    obtain ⟨k, v⟩ := p
    intro c h
    rw [List.any_cons, Bool.or_eq_true] at h
    by_cases hk1 : eqFold k "channel" = true
    · have e2 : eqFold k "published_messages" = false := by
        rw [eqFold_key_unique hk1]; decide
      have e3 : eqFold k "stored_messages" = false := by
        rw [eqFold_key_unique hk1]; decide
      have e4 : eqFold k "subscribers" = false := by
        rw [eqFold_key_unique hk1]; decide
      have hb : badChanField (k, v) = false := by
        simp [badChanField, e2, e3, e4]
      rcases h with hbad | hrest
      · rw [hb] at hbad
        simp at hbad
      · cases hd : decString v c.Channel with
        | error e => exact ⟨e, by simp [NumSchema.decChannelFields, hk1, hd]⟩
        | ok s =>
          obtain ⟨e, he⟩ := ih { c with Channel := s } hrest
          exact ⟨e, by simp [NumSchema.decChannelFields, hk1, hd, he]⟩
    · by_cases hk2 : eqFold k "published_messages" = true
      · rcases h with hbad | hrest
        · simp only [badChanField, Bool.and_eq_true] at hbad
          exact ⟨"cannot unmarshal value into int64", by
            simp [NumSchema.decChannelFields, hk1, hk2, decInt64_nonNumeric hbad.2]⟩
        · cases hd : decInt64 v c.PublishedMessages with
          | error e => exact ⟨e, by simp [NumSchema.decChannelFields, hk1, hk2, hd]⟩
          | ok n =>
            obtain ⟨e, he⟩ := ih { c with PublishedMessages := n } hrest
            exact ⟨e, by simp [NumSchema.decChannelFields, hk1, hk2, hd, he]⟩
      · by_cases hk3 : eqFold k "stored_messages" = true
        · rcases h with hbad | hrest
          · simp only [badChanField, Bool.and_eq_true] at hbad
            exact ⟨"cannot unmarshal value into int64", by
              simp [NumSchema.decChannelFields, hk1, hk2, hk3, decInt64_nonNumeric hbad.2]⟩
          · cases hd : decInt64 v c.StoredMessages with
            | error e =>
              exact ⟨e, by simp [NumSchema.decChannelFields, hk1, hk2, hk3, hd]⟩
            | ok n =>
              obtain ⟨e, he⟩ := ih { c with StoredMessages := n } hrest
              exact ⟨e, by simp [NumSchema.decChannelFields, hk1, hk2, hk3, hd, he]⟩
        · by_cases hk4 : eqFold k "subscribers" = true
          · rcases h with hbad | hrest
            · simp only [badChanField, Bool.and_eq_true] at hbad
              exact ⟨"cannot unmarshal value into int64", by
                simp [NumSchema.decChannelFields, hk1, hk2, hk3, hk4,
                  decInt64_nonNumeric hbad.2]⟩
            · cases hd : decInt64 v c.Subscribers with
              | error e =>
                exact ⟨e, by simp [NumSchema.decChannelFields, hk1, hk2, hk3, hk4, hd]⟩
              | ok n =>
                obtain ⟨e, he⟩ := ih { c with Subscribers := n } hrest
                exact ⟨e, by
                  simp [NumSchema.decChannelFields, hk1, hk2, hk3, hk4, hd, he]⟩
          · have f2 : eqFold k "published_messages" = false := by simpa using hk2
            have f3 : eqFold k "stored_messages" = false := by simpa using hk3
            have f4 : eqFold k "subscribers" = false := by simpa using hk4
            have hb : badChanField (k, v) = false := by
              simp [badChanField, f2, f3, f4]
            rcases h with hbad | hrest
            · rw [hb] at hbad
              simp at hbad
            · obtain ⟨e, he⟩ := ih c hrest
              exact ⟨e, by simp [NumSchema.decChannelFields, hk1, hk2, hk3, hk4, he]⟩

theorem decChannelList_bad (items : List Json) :
    items.any badItem = true → ∃ e, NumSchema.decChannelList items = .error e := by
  induction items with
  | nil =>
    intro h
    simp at h
  | cons it rest ih =>
    intro h
    cases hd : NumSchema.decChannelElem it with
    | error e => exact ⟨e, by simp [NumSchema.decChannelList, hd]⟩
    | ok c =>
      have hbi : badItem it = false := by
        cases it with
        | obj gs =>
          by_cases hb : gs.any badChanField = true
          · obtain ⟨e, he⟩ := decChannelFields_badField gs ⟨"", 0, 0, 0⟩ hb
            simp [NumSchema.decChannelElem, he, Except.map] at hd
          · simpa [badItem] using hb
        | null => rfl
        | bool b => rfl
        | num n => rfl
        | str s => rfl
        | arr l => rfl
      rw [List.any_cons, hbi, Bool.false_or] at h
      obtain ⟨e, he⟩ := ih h
      exact ⟨e, by simp [NumSchema.decChannelList, hd, he]⟩

theorem decPushStreamFields_bad (fs : List (String × Json)) :
    ∀ s : NumSchema.PushStream,
      (fs.any badTopField = true ∨
        ∃ p ∈ fs, eqFold p.1 "infos" = true ∧ ∃ e, NumSchema.decInfos p.2 = .error e) →
      ∃ e, NumSchema.decPushStreamFields fs s = .error e := by
  induction fs with
  | nil =>
    intro s h
    rcases h with h | ⟨p, hp, _⟩
    · simp at h
    · simp at hp
  | cons q rest ih =>
    obtain ⟨k, v⟩ := q
    intro s h
    by_cases hk1 : eqFold k "channels" = true
    · cases hd : decInt64 v s.Channels with
      | error e => exact ⟨e, by simp [NumSchema.decPushStreamFields, hk1, hd]⟩
      | ok n =>
        have hv : nonNumericVal v = false := decInt64_ok_nonNumeric hd
        have hinf : eqFold k "infos" = false := by
          rw [eqFold_key_unique hk1]; decide
        have h' : rest.any badTopField = true ∨
            ∃ p ∈ rest, eqFold p.1 "infos" = true ∧
              ∃ e, NumSchema.decInfos p.2 = .error e := by
          rcases h with hany | ⟨p, hp, hpi, he⟩
          · rw [List.any_cons, Bool.or_eq_true] at hany
            rcases hany with hbad | hrest
            · simp [badTopField, hv] at hbad
            · exact .inl hrest
          · rcases List.mem_cons.mp hp with rfl | hmem
            · simp [hinf] at hpi
            · exact .inr ⟨p, hmem, hpi, he⟩
        obtain ⟨e, he⟩ := ih { s with Channels := n } h'
        exact ⟨e, by simp [NumSchema.decPushStreamFields, hk1, hd, he]⟩
    · have f1 : eqFold k "channels" = false := by simpa using hk1
      by_cases hk2 : eqFold k "infos" = true
      · cases hd : NumSchema.decInfos v with
        | error e => exact ⟨e, by simp [NumSchema.decPushStreamFields, hk1, hk2, hd]⟩
        | ok l =>
          have h' : rest.any badTopField = true ∨
              ∃ p ∈ rest, eqFold p.1 "infos" = true ∧
                ∃ e, NumSchema.decInfos p.2 = .error e := by
            rcases h with hany | ⟨p, hp, hpi, e', he'⟩
            · rw [List.any_cons, Bool.or_eq_true] at hany
              rcases hany with hbad | hrest
              · simp [badTopField, f1] at hbad
              · exact .inl hrest
            · rcases List.mem_cons.mp hp with rfl | hmem
              · simp [hd] at he'
              · exact .inr ⟨p, hmem, hpi, e', he'⟩
          obtain ⟨e, he⟩ := ih { s with Infos := l } h'
          exact ⟨e, by simp [NumSchema.decPushStreamFields, hk1, hk2, hd, he]⟩
      · have h' : rest.any badTopField = true ∨
            ∃ p ∈ rest, eqFold p.1 "infos" = true ∧
              ∃ e, NumSchema.decInfos p.2 = .error e := by
          rcases h with hany | ⟨p, hp, hpi, he⟩
          · rw [List.any_cons, Bool.or_eq_true] at hany
            rcases hany with hbad | hrest
            · simp [badTopField, f1] at hbad
            · exact .inl hrest
          · rcases List.mem_cons.mp hp with rfl | hmem
            · exact absurd hpi hk2
            · exact .inr ⟨p, hmem, hpi, he⟩
        obtain ⟨e, he⟩ := ih s h'
        exact ⟨e, by simp [NumSchema.decPushStreamFields, hk1, hk2, he]⟩

theorem decodePushStream_bad {j : Json} (h : hasBadIntField j = true) :
    ∃ e, NumSchema.decodePushStream j = .error e := by
  cases j with
  | obj fs =>
    simp only [hasBadIntField, Bool.or_eq_true] at h
    have h' : fs.any badTopField = true ∨
        ∃ p ∈ fs, eqFold p.1 "infos" = true ∧
          ∃ e, NumSchema.decInfos p.2 = .error e := by
      rcases h with h1 | h2
      · exact .inl h1
      · right
        obtain ⟨p, hp, hpred⟩ := List.any_eq_true.mp h2
        rw [Bool.and_eq_true] at hpred
        obtain ⟨hpi, hmatch⟩ := hpred
        refine ⟨p, hp, hpi, ?_⟩
        cases hpv : p.2 with
        | arr items =>
          rw [hpv] at hmatch
          obtain ⟨e, he⟩ := decChannelList_bad items hmatch
          exact ⟨e, by simp [NumSchema.decInfos, hpv, he]⟩
        | null => rw [hpv] at hmatch; simp at hmatch
        | bool b => rw [hpv] at hmatch; simp at hmatch
        | num n => rw [hpv] at hmatch; simp at hmatch
        | str s => rw [hpv] at hmatch; simp at hmatch
        | obj gs => rw [hpv] at hmatch; simp at hmatch
    obtain ⟨e, he⟩ := decPushStreamFields_bad fs NumSchema.NewPushStream h'
    exact ⟨e, by simp [NumSchema.decodePushStream, he, Except.map]⟩
  | null => simp [hasBadIntField] at h
  | bool b => simp [hasBadIntField] at h
  | num n => simp [hasBadIntField] at h
  | str s => simp [hasBadIntField] at h
  | arr l => simp [hasBadIntField] at h

/-- C5 (counterexample): the JSON literal `null` is a non-numeric value
sitting in the integer-typed `channels` position, yet the binder skips
it, leaving the field at zero: decoding succeeds and the scrape
succeeds, emitting `channels{all}=0` — no `DecodeError`, contradicting
the claimed universal failure for non-numeric values in integer-typed
positions. -/
theorem null_in_int_position_counterexample :
    NumSchema.decodePushStream jNullChannels = .ok (some ⟨0, []⟩) ∧
    NumSchema.scrape defaultKeys (.ok jNullChannels)
      = ⟨1, [Sample.mk "channels" "all" 0, Sample.mk "subscribers_total" "all" 0],
          .success⟩ := by
  exact ⟨rfl, by decide⟩

/-- C5 (amended): a malformed body aborts the scrape; any parsed
document the native-number decoder rejects aborts the scrape; and every
native-number-schema document holding a non-numeric value other than
the JSON literal `null` in an integer-typed position is rejected by the
decoder — in particular the specification's
`{"channels":"not-a-number","infos":[]}`.  In each failing case the
scrape emits zero catalog samples, returns 0 (liveness gauge 0), and
increments the scrape counter exactly once. -/
theorem decode_error_aborts_scrape :
    (∀ (sel : List String) (e : String),
        NumSchema.scrape sel (.error e) = ⟨1, [], .failure⟩) ∧
    (∀ (sel : List String) (j : Json) (e : String),
        NumSchema.decodePushStream j = .error e →
        NumSchema.scrape sel (.ok j) = ⟨1, [], .failure⟩) ∧
    (∀ (sel : List String) (j : Json), hasBadIntField j = true →
        NumSchema.scrape sel (.ok j) = ⟨1, [], .failure⟩) ∧
    NumSchema.decodePushStream jBadChannels
      = .error "cannot unmarshal value into int64" ∧
    livenessSample .failure = some 0 := by
  refine ⟨fun sel e => rfl, fun sel j e h => ?_, fun sel j h => ?_, rfl, rfl⟩
  · simp [NumSchema.scrape, NumSchema.decodeBody, h]
  · obtain ⟨e, he⟩ := decodePushStream_bad h
    simp [NumSchema.scrape, NumSchema.decodeBody, he]

/-- Witness for the amended C5: the bad-integer-position clause applied
at the specification's malformed payload under the default selection,
its hypothesis evaluated. -/
theorem decode_error_aborts_scrape_witness :
    hasBadIntField jBadChannels = true ∧
    NumSchema.scrape defaultKeys (.ok jBadChannels) = ⟨1, [], .failure⟩ :=
  ⟨by decide,
   decode_error_aborts_scrape.2.2.1 defaultKeys jBadChannels (by decide)⟩

/-- C6 (code bug, evaluated): the empty selection string filters to the
empty subset, but a scrape run with that empty subset does not succeed
with zero samples: the unconditional `subscribers_total` emission looks
up a nil descriptor and panics, so no liveness sample follows. -/
theorem empty_selection_eval :
    filterMetrics "" = [] ∧
    NumSchema.scrape ((filterMetrics "").map Prod.fst) (.ok jC1)
      = ⟨1, [], .panicked⟩ := by
  exact ⟨rfl, by decide⟩

/-- C7: a catalog entry is selected exactly when its key, verbatim, is
one of the comma-separated tokens of a non-empty selection string;
matching is case-sensitive and does not trim whitespace, and unknown
tokens are ignored while known ones still select their entries. -/
theorem filterMetrics_exact_case_sensitive :
    (∀ (s : String) (p : String × Desc), s ≠ "" →
        (p ∈ filterMetrics s ↔
          p ∈ pushStreamMetrics ∧ (stringsSplit s ',').contains p.1 = true)) ∧
    filterMetrics "Channels" = [] ∧
    (filterMetrics "channels ,subscribers").map Prod.fst = ["subscribers"] ∧
    (filterMetrics " channels,subscribers").map Prod.fst = ["subscribers"] ∧
    (filterMetrics "bogus_metric,channels").map Prod.fst = ["channels"] := by
  refine ⟨?_, by decide, by decide, by decide, by decide⟩
  intro s p hs
  rw [filterMetrics, if_neg (fun h0 => hs (string_length_zero h0))]
  simp [selectKeys, List.mem_filter]

/-- Witness for C7: the membership characterisation applied to a
selection mixing an unknown token with a known key. -/
theorem filterMetrics_exact_case_sensitive_witness :
    (("channels", channelsDesc) ∈ filterMetrics "bogus_metric,channels" ↔
      ("channels", channelsDesc) ∈ pushStreamMetrics ∧
        (stringsSplit "bogus_metric,channels" ',').contains "channels" = true) :=
  filterMetrics_exact_case_sensitive.1 "bogus_metric,channels"
    ("channels", channelsDesc) (by decide)

/-- C8: enumerating the catalog keys yields all five keys in ascending
order joined by commas, and this string is the default value of the
`nginx.metric-fields` selection flag. -/
theorem metricsString_sorted_default :
    metricsString
      = "channels,published_messages,stored_messages,subscribers,subscribers_total" ∧
    nginxMetricFieldsDefault = metricsString := ⟨rfl, rfl⟩

/-- C9 (counterexample): the JSON literal `null` decodes with no error
but also with no record — the target pointer is set to nil — so decoding
does not always produce a complete record or an error; the subsequent
reflective walk panics before emitting anything. -/
theorem decode_null_counterexample :
    NumSchema.decodeBody (.ok .null) = .ok none ∧
    NumSchema.scrape defaultKeys (.ok .null) = ⟨1, [], .panicked⟩ := by
  exact ⟨rfl, by decide⟩

/-- C9 (amended): decoding any body yields a complete record, or (for
the JSON literal `null` only) success with a nil record on which
extraction faults before emitting any sample, or an error after which
the scrape emits no samples and reports failure; in no case does
extraction observe a partial record. -/
theorem decode_total_amended :
    ∀ (input : Except String Json) (sel : List String),
      (∃ ps, NumSchema.decodeBody input = .ok (some ps)) ∨
      (NumSchema.decodeBody input = .ok none ∧
        NumSchema.scrape sel input = ⟨1, [], .panicked⟩) ∨
      (∃ e, NumSchema.decodeBody input = .error e ∧
        NumSchema.scrape sel input = ⟨1, [], .failure⟩) := by
  intro input sel
  cases h : NumSchema.decodeBody input with
  | error e => exact .inr (.inr ⟨e, rfl, by simp [NumSchema.scrape, h]⟩)
  | ok o =>
    cases o with
    | none => exact .inr (.inl ⟨rfl, by simp [NumSchema.scrape, h]⟩)
    | some ps => exact .inl ⟨ps, rfl⟩

/-- C10: every selected entry is an entry of the five-element catalog
bound to the identical descriptor, the selection never exceeds five
entries, holds no key twice, and deduplicating the selection tokens does
not change the selected set. -/
theorem filterMetrics_submap_catalog :
    (∀ (s : String) (p : String × Desc),
        p ∈ filterMetrics s → p ∈ pushStreamMetrics) ∧
    (∀ s : String, (filterMetrics s).length ≤ 5) ∧
    (∀ s : String, ((filterMetrics s).map Prod.fst).Nodup) ∧
    (∀ tokens : List String, selectKeys tokens.dedup = selectKeys tokens) := by
  refine ⟨?_, ?_, ?_, ?_⟩
  · intro s p hp
    rw [filterMetrics] at hp
    by_cases h : s.length = 0
    · rw [if_pos h] at hp
      simp at hp
    · rw [if_neg h] at hp
      exact (List.mem_filter.mp hp).1
  · intro s
    rw [filterMetrics]
    by_cases h : s.length = 0
    · simp [h]
    · rw [if_neg h]
      simp only [selectKeys]
      exact le_trans (List.length_filter_le _ _) (by decide)
  · intro s
    have hsub : List.Sublist (filterMetrics s) pushStreamMetrics := by
      rw [filterMetrics]
      by_cases h : s.length = 0
      · simp [h]
      · rw [if_neg h]
        simp only [selectKeys]
        exact List.filter_sublist _
    exact List.Nodup.sublist (hsub.map Prod.fst) (by decide)
  · intro tokens
    rw [selectKeys, selectKeys]
    apply List.filter_congr
    intro p hp
    have hiff : (tokens.dedup.contains p.1 = true) ↔ (tokens.contains p.1 = true) := by
      simp
    exact Bool.eq_iff_iff.mpr hiff

/-- Witness for C10: the sub-map property applied at the singleton
selection of `channels`. -/
theorem filterMetrics_submap_catalog_witness :
    ("channels", channelsDesc) ∈ pushStreamMetrics :=
  filterMetrics_submap_catalog.1 "channels" ("channels", channelsDesc) (by decide)

end NginxPushStream

